import Mathlib

/-!
Shallow embedding of `src/process_behavior.py` (the churn feature pipeline) and
proofs checking the natural-language specification against it.

Conventions of the embedding:
* Calendar months are identified with `Int` (consecutive integers, one per
  month; a value `m` with `m % 12 = 0` is a January).  A concrete date is a
  month together with a 0-based day inside that month, ordered
  lexicographically.  This is order-isomorphic to real calendar dates at the
  granularity the program uses (the pandas month-start Grouper buckets to months,
  phrased as `datetime64[M]` truncation to months).
* DataFrames become lists of records; groupby/transform/agg become explicit
  per-customer list computations; pandas exceptions (`ValueError`, `TypeError`,
  `KeyError`, `NameError`) become `Except.error` values carrying the kind of
  exception, raised in the same order the source lines execute.
* Volumes are `Int`; rolling means are exact rationals (`Rat`).
-/

namespace ProcessBehavior

/-- A concrete date: an absolute month index plus a 0-based day inside the
month.  `⟨m, 0⟩` is the first day of month `m` (what a pandas month-start
Timestamp denotes). -/
structure Date where
  month : Int
  day : Nat
deriving DecidableEq, Repr

/-- Lexicographic `≤` on dates (the order pandas Timestamps have). -/
def dateLe (a b : Date) : Bool :=
  decide (a.month < b.month) || (decide (a.month = b.month) && decide (a.day ≤ b.day))

/-- Lexicographic `<` on dates. -/
def dateLt (a b : Date) : Bool :=
  decide (a.month < b.month) || (decide (a.month = b.month) && decide (a.day < b.day))

/-- Truncation of a date to its calendar month: the `datetime64[M]` cast
and also the bucket assigned by the month-start Grouper. -/
def monthOf (d : Date) : Int := d.month

/-- One row of `demgeo_df` (columns `client_id`, `became_date_col`,
`churn_date_col` plus the cohort attribute columns consulted by
`filter_rows`).  `churn = none` models a NaT churn date (active customer). -/
structure CustRecord where
  cid : Nat
  became : Date
  churn : Option Date
  attrs : List (String × String)
deriving DecidableEq, Repr

/-- One row of `behavior_df`: `(client_id, behavior_date_col,
behavior_volume_col)`. -/
structure BehaviorEvent where
  cid : Nat
  date : Date
  volume : Int
deriving DecidableEq, Repr

/-- One row of the returned dataframe: index `(client_id, term)`, the
`volume_0..volume_{term-1}` tuple, the `rolling` tuple, `churned` as an int,
the `month` column and the optional `train` column. -/
structure TermRow where
  cid : Nat
  termIdx : Nat
  volumes : List Int
  rollings : List Rat
  churned : Nat
  month : Int
  train : Option Bool
deriving DecidableEq, Repr

/-- A demographic record violating the lifecycle contract: a non-null churn
date with `churn_date < became_date` (lines 105-106). -/
def badRecord (r : CustRecord) : Bool :=
  match r.churn with
  | some c => !(dateLe r.became c)
  | none => false

/-- Lines 104-107: the consistency check.  If some non-null churn date is
earlier than its became date the run raises `ValueError`; otherwise the data
passes through unchanged. -/
def validateDemgeo (d : List CustRecord) : Except String (List CustRecord) :=
  if d.any badRecord then
    .error "ValueError: existem datas churn nao nulas anteriores as datas became customer"
  else .ok d

/-- A record matches the row filter when every `{col: value}` pair of
`filter_rows` holds for it (line 118, applied once per filter column). -/
def matchesFilters (frs : List (String × String)) (r : CustRecord) : Bool :=
  frs.all (fun kv => r.attrs.lookup kv.1 == some kv.2)

/-- Lines 117-119: keep only the demographic rows matching every filter. -/
def filterDemgeo (frs : List (String × String)) (d : List CustRecord) : List CustRecord :=
  d.filter (matchesFilters frs)

/-- Line 122: keep only behavior rows whose customer survived the filter. -/
def restrictBehavior (d1 : List CustRecord) (b : List BehaviorEvent) : List BehaviorEvent :=
  b.filter (fun e => d1.any (fun r => r.cid == e.cid))

/-- Lines 126-129 (`ids_no_behavior`): for each demographic row whose customer
has no behavior row, one artificial event with volume 0 dated at the became
date. -/
def ids_no_behavior (d1 : List CustRecord) (b1 : List BehaviorEvent) : List BehaviorEvent :=
  (d1.filter (fun r => !(b1.any (fun e => e.cid == r.cid)))).map
    (fun r => { cid := r.cid, date := r.became, volume := 0 })

/-- Lines 134-136: the per-(customer, month) volume after grouping, i.e. the
sum of the volumes of the events of the customer falling in month `m`. -/
def bucketVolume (evs : List BehaviorEvent) (cid : Nat) (m : Int) : Int :=
  ((evs.filter (fun e => e.cid == cid && monthOf e.date == m)).map (·.volume)).sum

/-- Line 141 (month-start date_range from min to max): every month from `lo`
to `hi` inclusive. -/
def date_range (lo hi : Int) : List Int :=
  (List.range (hi + 1 - lo).toNat).map (fun (i : Nat) => lo + (i : Int))

/-- Lines 139-141: the bounds of the shared grid are the min and max bucketed
month over all customers.  On an empty frame the min/max are NaT and
`pd.date_range` raises `ValueError`. -/
def gridOf (evs : List BehaviorEvent) : Except String (List Int) :=
  match evs.map (fun e => monthOf e.date) with
  | [] => .error "ValueError: Neither start nor end can be NaT"
  | m :: ms => .ok (date_range (ms.foldl min m) (ms.foldl max m))

/-- Lines 158-159: the value, at grid period `p`, of the cumulative sum (down
the grid rows of the customer) of the indicator `period == m`.  The grid is
strictly increasing, so the rows at or before `p` are exactly the grid entries
`≤ p`. -/
def flag_cumsum (grid : List Int) (m : Int) (p : Int) : Nat :=
  (grid.filter (fun g => g == m && decide (g ≤ p))).length

/-- Line 165: `active_flag = became_flag & ~churn_flag` on the cumulative-sum
columns (both sums are 0 or 1 since grid months are distinct, so the bitwise
expression is truthy iff the became sum is nonzero and the churn sum is zero;
a NaT churn date never matches any period, giving a zero churn sum). -/
def active_flag (grid : List Int) (r : CustRecord) (p : Int) : Bool :=
  decide (flag_cumsum grid (monthOf r.became) p ≠ 0) &&
    (match r.churn with
     | none => true
     | some c => decide (flag_cumsum grid (monthOf c) p = 0))

/-- Lines 145-146 and 171: the reindexed, zero-filled series
restricted to its active periods, as chronologically ordered
(month, volume) pairs. -/
def active_series (grid : List Int) (evs : List BehaviorEvent) (r : CustRecord) :
    List (Int × Int) :=
  (grid.filter (active_flag grid r)).map (fun m => (m, bucketVolume evs r.cid m))

/-- Line 175: `term_dict`. -/
def term_dict (s : String) : Option Nat :=
  if s = "Anual" then some 12
  else if s = "Trimestral" then some 3
  else if s = "Mensal" then some 1
  else if s = "Semestral" then some 6
  else none

/-- Line 176: the term lookup `term_dict[filter_rows[last_recurrence]]`; a missing
key (e.g. an empty `filter_rows`) or an unknown recurrence raises `KeyError`. -/
def resolveTerm (frs : List (String × String)) : Except String Nat :=
  match frs.lookup "last_recurrence" with
  | none => .error "KeyError: last_recurrence"
  | some v =>
    match term_dict v with
    | none => .error "KeyError: unknown recurrence"
    | some t => .ok t

/-- Line 179 (`keep_month_func`): the boolean keep-mask of a group of length
`n` — `term * (n // term)` leading `True`s then `n % term` `False`s. -/
def keep_month_func (term n : Nat) : List Bool :=
  List.replicate (term * (n / term)) true ++ List.replicate (n % term) false

/-- Row filtering by a boolean mask column (`behavior_df[behavior_df.keep_month]`). -/
def maskFilter (l : List α) (mask : List Bool) : List α :=
  (l.zip mask).filterMap (fun p => if p.2 then some p.1 else none)

/-- Lines 179-182 applied to the group of one customer: keep the first
`term * (len // term)` rows. -/
def keep_month_trim (term : Nat) (seq : List (Int × Int)) : List (Int × Int) :=
  maskFilter seq (keep_month_func term seq.length)

/-- Line 186 (`fix_churn_func`): rewrite the churned column of a customer so that it
is all-`False`, except that the last row of a churned customer (the first row tells
whether the customer churned, the column being constant) becomes `True`. -/
def fix_churn_func (churnedCol : List Bool) : List Bool :=
  if churnedCol.headD false then
    List.replicate (churnedCol.length - 1) false ++ [true]
  else List.replicate churnedCol.length false

/-- Lines 204-205 without the final shift: the trailing rolling mean of window
`|w|` (min one period) ending at index `k` of `xs`, i.e. the mean of
`xs[k - min |w| (k+1) + 1 .. k]` — evaluated here at `k-1` so the current
period is excluded.  `rolling_mean_at wa xs k` is the mean of the
`min wa k` values strictly before index `k`. -/
def rolling_mean_at (wa : Nat) (xs : List Int) (k : Nat) : Rat :=
  let win := (xs.drop (k - min wa k)).take (min wa k)
  ((win.map (fun (v : Int) => (v : Rat))).sum) / (win.length : Rat)

/-- Lines 204-205: the shifted, zero-filled rolling-mean column for the volume
series of one customer.  Position 0 is `0` (`shift` then `fillna(0)`);
position `k ≥ 1` is the rolling mean of the `min wa k` volumes strictly
before `k` (`min_periods = 1`). -/
def rolling_base (wa : Nat) (xs : List Int) : List Rat :=
  (List.range xs.length).map
    (fun k => if k = 0 then (0 : Rat) else rolling_mean_at wa xs k)

/-- The whole rolling-feature column: the shifted, zero-filled rolling mean,
replaced by `volume - rolling_mean` when `w` is negative (`take_diff`,
lines 198-207). -/
def rolling_feature (w : Int) (xs : List Int) : List Rat :=
  if w < 0 then
    List.zipWith (fun (x : Int) (r : Rat) => (x : Rat) - r) xs (rolling_base w.natAbs xs)
  else rolling_base w.natAbs xs

/-- The guard at line 197: `if rolling_window:` — when `rolling_window` is `None`
or `0` the rolling column is never created, and building `behavior_agg_dict`
at line 213 raises `NameError` on the unbound `behavior_volume_col_rm`. -/
def resolveRolling (rolling_window : Option Int) : Except String Int :=
  match rolling_window with
  | none => .error "NameError: name behavior_volume_col_rm is not defined"
  | some w =>
    if w = 0 then .error "NameError: name behavior_volume_col_rm is not defined"
    else .ok w

/-- `x.month` of a month-start Timestamp in month `m` (1 = January). -/
def monthNum (m : Int) : Int := m.emod 12 + 1

/-- Lines 178-247 applied to the active series of one customer `seq`:
trim the incomplete tail (lines 179-182), fix the churned column (186-187),
assign terms (192-193), compute the rolling column (197-207), and aggregate
each term block into one output row (210-244).  `isChurned` is the constant
value of the `churned` column of the customer (line 162). -/
def rowsFromSeq (cid : Nat) (term : Nat) (w : Int) (split : Option Date)
    (isChurned : Bool) (seq : List (Int × Int)) : List TermRow :=
  let trimmed := keep_month_trim term seq
  let vols := trimmed.map (·.2)
  let months := trimmed.map (·.1)
  let churnFixed := fix_churn_func (List.replicate trimmed.length isChurned)
  let roll := rolling_feature w vols
  (List.range (seq.length / term)).map (fun t =>
    let firstMonth := (months.drop (t * term)).headD 0
    { cid := cid
      termIdx := t
      volumes := (vols.drop (t * term)).take term
      rollings := (roll.drop (t * term)).take term
      churned := ((churnFixed.drop (t * term)).take term).countP (fun b => b)
      month := monthNum firstMonth
      train := split.map (fun d => dateLt ⟨firstMonth, 0⟩ d) })

/-- The whole per-customer tail of the pipeline: the active series of the
joined, reindexed grid rows (lines 145-172) fed through `rowsFromSeq`. -/
def customerRows (grid : List Int) (term : Nat) (w : Int) (split : Option Date)
    (evs : List BehaviorEvent) (r : CustRecord) : List TermRow :=
  rowsFromSeq r.cid term w split r.churn.isSome (active_series grid evs r)

/-- Lines 117 and 176: iterating over a `None` filter mapping raises
`TypeError` (the docstring nevertheless documents `None` as a valid value). -/
def filtersOrError (filter_rows : Option (List (String × String))) :
    Except String (List (String × String)) :=
  match filter_rows with
  | none => .error "TypeError: NoneType object is not iterable"
  | some frs => .ok frs

/-- The full `process_behavior` (lines 8-247) with the default column names:
validate, filter the cohort, restrict and zero-fill the behavior table, build
the shared month grid, resolve the term length, check the rolling
configuration, and emit one row per (customer, complete term).  Each customer
group is processed by `customerRows`; groups appear once per distinct
customer id (the pandas groupby; duplicate demographic ids are undefined
upstream, the first record is used). -/
def process_behavior (demgeo : List CustRecord) (behavior : List BehaviorEvent)
    (filter_rows : Option (List (String × String)))
    (rolling_window : Option Int) (split_by_date : Option Date) :
    Except String (List TermRow) :=
  match validateDemgeo demgeo with
  | .error e => .error e
  | .ok demgeoV =>
    match filtersOrError filter_rows with
    | .error e => .error e
    | .ok frs =>
      let d1 := filterDemgeo frs demgeoV
      let b1 := restrictBehavior d1 behavior
      let b2 := b1 ++ ids_no_behavior d1 b1
      match gridOf b2 with
      | .error e => .error e
      | .ok grid =>
        match resolveTerm frs with
        | .error e => .error e
        | .ok term =>
          match resolveRolling rolling_window with
          | .error e => .error e
          | .ok w =>
            .ok (((d1.map (·.cid)).dedup.map (fun cid =>
              match d1.find? (fun r => r.cid == cid) with
              | some r => customerRows grid term w split_by_date b2 r
              | none => [])).flatten)

/-- The activity window exactly as the spec words it (§4.5, claim C3): a
period is in the window iff it lies on or after the became month (inclusive)
and, for churned customers, strictly before the churn month; unbounded for
never-churned customers.  Written for comparison with the code predicate
`active_flag`. -/
def specWindow (r : CustRecord) (p : Int) : Bool :=
  decide (monthOf r.became ≤ p) &&
    (match r.churn with
     | none => true
     | some c => decide (p < monthOf c))

/-- A quarterly customer: became in month 0, never churned. -/
def sampleTri : CustRecord := ⟨1, ⟨0, 0⟩, none, [("last_recurrence", "Trimestral")]⟩

/-- A quarterly customer: became in month 0, churned mid-month in month 3. -/
def sampleChurn : CustRecord := ⟨1, ⟨0, 0⟩, some ⟨3, 10⟩, [("last_recurrence", "Trimestral")]⟩

/-- A record violating the lifecycle contract: churn date before became date. -/
def badChurnRec : CustRecord := ⟨7, ⟨5, 0⟩, some ⟨2, 0⟩, []⟩

/-- A monthly customer whose became month (-1) precedes every bucketed event
month of the run it is used in. -/
def recPre : CustRecord := ⟨3, ⟨-1, 0⟩, none, [("last_recurrence", "Mensal")]⟩

/-- A monthly customer: became in month 0, never churned. -/
def recM1 : CustRecord := ⟨1, ⟨0, 0⟩, none, [("last_recurrence", "Mensal")]⟩

/-- A monthly customer: became in month 2, never churned. -/
def recM2 : CustRecord := ⟨2, ⟨2, 0⟩, none, [("last_recurrence", "Mensal")]⟩

/-- Events for the run of `recPre`: `recPre` (cid 3) has an event in month 1,
`recM1` (cid 1) anchors the grid start at month 0. -/
def evPre : List BehaviorEvent := [⟨3, ⟨1, 0⟩, 4⟩, ⟨1, ⟨0, 0⟩, 1⟩]

/-- Two monthly customers sharing no id with `behavior7`. -/
def demgeo7 : List CustRecord := [recM1, recM2]

/-- One behavior row whose customer (99) is not in `demgeo7`. -/
def behavior7 : List BehaviorEvent := [⟨99, ⟨1, 0⟩, 7⟩]

/-- A five-month grid. -/
def gridD : List Int := date_range 0 4

/-- Five monthly events for cid 1, volumes `[2, 1, 0, 3, 5]`. -/
def evD1 : List BehaviorEvent :=
  [⟨1, ⟨0, 0⟩, 2⟩, ⟨1, ⟨1, 0⟩, 1⟩, ⟨1, ⟨2, 0⟩, 0⟩, ⟨1, ⟨3, 0⟩, 3⟩, ⟨1, ⟨4, 0⟩, 5⟩]

/-- Same as `evD1` except in months 3 and 4 — the periods a quarterly term
length trims away. -/
def evD2 : List BehaviorEvent :=
  [⟨1, ⟨0, 0⟩, 2⟩, ⟨1, ⟨1, 0⟩, 1⟩, ⟨1, ⟨2, 0⟩, 0⟩, ⟨1, ⟨3, 0⟩, 30⟩, ⟨1, ⟨4, 0⟩, 50⟩]

/-! ### Helper lemmas about the embedded operations -/

lemma dateLe_month {a b : Date} (h : dateLe a b = true) : a.month ≤ b.month := by
  simp only [dateLe, Bool.or_eq_true, Bool.and_eq_true, decide_eq_true_eq] at h
  omega

lemma not_dateLe {a b : Date} : (!(dateLe a b)) = dateLt b a := by
  rw [Bool.eq_iff_iff]
  simp only [Bool.not_eq_true', dateLe, dateLt, Bool.or_eq_true, Bool.and_eq_true,
    decide_eq_true_eq, Bool.or_eq_false_iff, Bool.and_eq_false_iff,
    decide_eq_false_iff_not]
  omega

lemma maskFilter_false (l : List α) (m : Nat) :
    maskFilter l (List.replicate m false) = [] := by
  induction l generalizing m with
  | nil => simp [maskFilter]
  | cons a l ih =>
    cases m with
    | zero => simp [maskFilter]
    | succ m => simpa [maskFilter, List.replicate_succ] using ih m

lemma maskFilter_keep (l : List α) (k m : Nat) (h : l.length = k + m) :
    maskFilter l (List.replicate k true ++ List.replicate m false) = l.take k := by
  induction k generalizing l with
  | zero => simpa using maskFilter_false l m
  | succ k ih =>
    cases l with
    | nil => simp only [List.length_nil] at h; omega
    | cons a l =>
      have h' : l.length = k + m := by simpa [Nat.succ_add] using h
      simpa [maskFilter, List.replicate_succ] using ih l h'

lemma keep_month_trim_eq_take (term : Nat) (seq : List (Int × Int)) :
    keep_month_trim term seq = seq.take (term * (seq.length / term)) := by
  unfold keep_month_trim keep_month_func
  exact maskFilter_keep _ _ _ (Nat.div_add_mod seq.length term).symm

lemma length_keep_month_trim (term : Nat) (seq : List (Int × Int)) :
    (keep_month_trim term seq).length = term * (seq.length / term) := by
  rw [keep_month_trim_eq_take, List.length_take, Nat.min_eq_left]
  calc term * (seq.length / term) = seq.length / term * term := Nat.mul_comm _ _
    _ ≤ seq.length := Nat.div_mul_le_self _ _

lemma length_rolling_base (wa : Nat) (xs : List Int) :
    (rolling_base wa xs).length = xs.length := by
  simp [rolling_base]

lemma length_rolling_feature (w : Int) (xs : List Int) :
    (rolling_feature w xs).length = xs.length := by
  unfold rolling_feature
  split <;> simp [List.length_zipWith, length_rolling_base]

lemma rolling_mean_at_take (wa : Nat) (xs : List Int) (n k : Nat) (hk : k ≤ n) :
    rolling_mean_at wa (xs.take n) k = rolling_mean_at wa xs k := by
  unfold rolling_mean_at
  have hwin : ((xs.take n).drop (k - min wa k)).take (min wa k)
      = (xs.drop (k - min wa k)).take (min wa k) := by
    rw [List.drop_take, List.take_take]
    congr 1
    omega
  rw [hwin]

lemma rolling_base_take (wa : Nat) (xs : List Int) (n : Nat) :
    rolling_base wa (xs.take n) = (rolling_base wa xs).take n := by
  rcases Nat.le_total n xs.length with h | h
  · unfold rolling_base
    rw [← List.map_take, List.take_range, List.length_take]
    have hmin : n ⊓ xs.length = n := by omega
    rw [hmin]
    apply List.map_congr_left
    intro k hk
    rw [List.mem_range] at hk
    rcases Nat.eq_zero_or_pos k with rfl | hkpos
    · simp
    · simp only [Nat.pos_iff_ne_zero.mp hkpos, if_neg (Nat.pos_iff_ne_zero.mp hkpos)]
      exact rolling_mean_at_take wa xs n k (Nat.le_of_lt hk)
  · rw [List.take_of_length_le h, List.take_of_length_le]
    rw [length_rolling_base]
    exact h

lemma rolling_feature_take (w : Int) (xs : List Int) (n : Nat) :
    rolling_feature w (xs.take n) = (rolling_feature w xs).take n := by
  unfold rolling_feature
  split
  · rw [rolling_base_take, List.take_zipWith]
  · exact rolling_base_take _ _ _

lemma mem_date_range {lo hi p : Int} : p ∈ date_range lo hi ↔ lo ≤ p ∧ p ≤ hi := by
  unfold date_range
  simp only [List.mem_map, List.mem_range]
  constructor
  · rintro ⟨i, hilt, rfl⟩
    omega
  · rintro ⟨h1, h2⟩
    exact ⟨(p - lo).toNat, by omega, by omega⟩

lemma flag_cumsum_ne_zero_iff {lo hi m p : Int} :
    flag_cumsum (date_range lo hi) m p ≠ 0 ↔ lo ≤ m ∧ m ≤ hi ∧ m ≤ p := by
  unfold flag_cumsum
  rw [Ne, List.length_eq_zero, List.filter_eq_nil_iff]
  constructor
  · intro h
    by_contra hno
    apply h
    intro g hg
    rw [mem_date_range] at hg
    simp only [Bool.and_eq_true, beq_iff_eq, decide_eq_true_eq, not_and]
    intro hgm
    omega
  · rintro ⟨h1, h2, h3⟩ hall
    have := hall m (mem_date_range.mpr ⟨h1, h2⟩)
    simp [h3] at this

lemma foldl_min_le_foldl_max (ms : List Int) (a b : Int) (h : a ≤ b) :
    ms.foldl min a ≤ ms.foldl max b := by
  induction ms generalizing a b with
  | nil => exact h
  | cons x ms ih =>
    exact ih _ _ (le_trans (min_le_left a x) (le_trans h (le_max_left b x)))

lemma date_range_ne_nil {lo hi : Int} (h : lo ≤ hi) : date_range lo hi ≠ [] := by
  intro hnil
  have : lo ∈ date_range lo hi := mem_date_range.mpr ⟨le_refl lo, h⟩
  rw [hnil] at this
  exact List.not_mem_nil lo this

lemma gridOf_ok_ne_nil {evs : List BehaviorEvent} {g : List Int}
    (hne : evs ≠ []) (hg : gridOf evs = .ok g) : g ≠ [] := by
  cases evs with
  | nil => exact absurd rfl hne
  | cons e es =>
    simp only [gridOf, List.map_cons] at hg
    injection hg with hg
    rw [← hg]
    exact date_range_ne_nil (foldl_min_le_foldl_max _ _ _ (le_refl _))

lemma length_rowsFromSeq (cid term : Nat) (w : Int) (split : Option Date)
    (ch : Bool) (seq : List (Int × Int)) :
    (rowsFromSeq cid term w split ch seq).length = seq.length / term := by
  simp [rowsFromSeq]

lemma rowsFromSeq_congr (cid term : Nat) (w : Int) (split : Option Date) (ch : Bool)
    {seq seq2 : List (Int × Int)}
    (hlen : seq.length = seq2.length)
    (htrim : keep_month_trim term seq = keep_month_trim term seq2) :
    rowsFromSeq cid term w split ch seq = rowsFromSeq cid term w split ch seq2 := by
  unfold rowsFromSeq
  rw [hlen, htrim]

lemma headD_replicate (n : Nat) (b : Bool) :
    (List.replicate n b).headD false = if n = 0 then false else b := by
  cases n <;> simp [List.replicate_succ]

lemma countP_id_replicate_false (n : Nat) :
    (List.replicate n false).countP (fun b => b) = 0 := by
  rw [List.countP_eq_zero]
  intro a ha
  rw [List.eq_of_mem_replicate ha]
  simp

lemma fix_churn_slice_count (term nT t : Nat) (hterm : 0 < term) (ht : t < nT) :
    (((List.replicate (term * nT - 1) false ++ [true]).drop (t * term)).take term).countP
        (fun b => b)
      = if t = nT - 1 then 1 else 0 := by
  have key1 : (t + 1) * term ≤ nT * term := Nat.mul_le_mul_right term (by omega)
  have key2 : nT * term = term * nT := Nat.mul_comm _ _
  have key3 : (t + 1) * term = t * term + term := Nat.succ_mul t term
  have hdrop : (List.replicate (term * nT - 1) false ++ [true]).drop (t * term)
      = List.replicate (term * nT - 1 - t * term) false ++ [true] := by
    rw [List.drop_append_of_le_length (by simp [List.length_replicate]; omega),
      List.drop_replicate]
  rw [hdrop]
  by_cases hlast : t = nT - 1
  · subst hlast
    have key6 : term ≤ nT * term := Nat.le_mul_of_pos_left term (by omega)
    have key4 : (nT - 1) * term = nT * term - term := by
      rw [Nat.sub_mul, Nat.one_mul]
    have hlen : term * nT - 1 - (nT - 1) * term = term - 1 := by omega
    rw [hlen, if_pos rfl]
    rw [List.take_of_length_le (by simp [List.length_replicate]; omega)]
    rw [List.countP_append, countP_id_replicate_false]
    simp [List.countP_cons]
  · have hlt : t < nT - 1 := by omega
    have key5 : (t + 1) * term ≤ (nT - 1) * term := Nat.mul_le_mul_right term (by omega)
    have key4 : (nT - 1) * term = nT * term - term := by
      rw [Nat.sub_mul, Nat.one_mul]
    rw [if_neg hlast]
    rw [List.take_append_of_le_length (by simp [List.length_replicate]; omega),
      List.take_replicate]
    exact countP_id_replicate_false _

lemma map_range_last_indicator (nT : Nat) (h : 0 < nT) :
    (List.range nT).map (fun t => if t = nT - 1 then (1 : Nat) else 0)
      = List.replicate (nT - 1) 0 ++ [1] := by
  obtain ⟨k, rfl⟩ : ∃ k, nT = k + 1 := ⟨nT - 1, by omega⟩
  rw [List.range_succ, List.map_append]
  congr 1
  · rw [List.eq_replicate_iff]
    refine ⟨by simp, ?_⟩
    intro b hb
    rw [List.mem_map] at hb
    obtain ⟨t, ht, rfl⟩ := hb
    rw [List.mem_range] at ht
    rw [if_neg (by omega)]
  · simp

lemma map_churned_rowsFromSeq (cid term : Nat) (w : Int) (split : Option Date)
    (ch : Bool) (seq : List (Int × Int)) :
    (rowsFromSeq cid term w split ch seq).map (·.churned)
      = (List.range (seq.length / term)).map (fun t =>
          (((fix_churn_func
                (List.replicate (keep_month_trim term seq).length ch)).drop
              (t * term)).take term).countP (fun b => b)) := by
  unfold rowsFromSeq
  rw [List.map_map]
  apply List.map_congr_left
  intro t ht
  rfl

/-! ### The claims -/

/-- C1: for every churned customer with at least one emitted term row, the
`churned` column of its rows is 0 everywhere except the chronologically last
row, where it is 1 (so exactly one row carries the label); for every
never-churned customer every emitted row has `churned = 0`. -/
theorem churned_label_last_row_only (grid : List Int) (term : Nat) (w : Int)
    (split : Option Date) (evs : List BehaviorEvent) (r : CustRecord) :
    (r.churn.isSome = true → customerRows grid term w split evs r ≠ [] →
      (customerRows grid term w split evs r).map (·.churned)
        = List.replicate ((customerRows grid term w split evs r).length - 1) 0 ++ [1])
    ∧ (r.churn = none →
      ∀ row ∈ customerRows grid term w split evs r, row.churned = 0) := by
  constructor
  · intro hch hne
    have hlen : (customerRows grid term w split evs r).length
        = (active_series grid evs r).length / term := length_rowsFromSeq _ _ _ _ _ _
    have hnT : 0 < (active_series grid evs r).length / term := by
      rcases Nat.eq_zero_or_pos ((active_series grid evs r).length / term) with h0 | h
      · exact absurd (List.length_eq_zero.mp (by rw [hlen, h0])) hne
      · exact h
    have hterm : 0 < term := by
      rcases Nat.eq_zero_or_pos term with rfl | h
      · rw [Nat.div_zero] at hnT
        omega
      · exact h
    have hfix : fix_churn_func
          (List.replicate (keep_month_trim term (active_series grid evs r)).length
            r.churn.isSome)
        = List.replicate (term * ((active_series grid evs r).length / term) - 1) false
            ++ [true] := by
      rw [hch, length_keep_month_trim]
      obtain ⟨m0, hm0⟩ :
          ∃ m0, term * ((active_series grid evs r).length / term) = m0 + 1 :=
        ⟨term * ((active_series grid evs r).length / term) - 1,
          by have := Nat.mul_pos hterm hnT; omega⟩
      rw [hm0]
      simp [fix_churn_func, List.replicate_succ]
    rw [hlen]
    unfold customerRows
    rw [map_churned_rowsFromSeq]
    simp only [hfix]
    have hstep : (List.range ((active_series grid evs r).length / term)).map
        (fun t =>
          (((List.replicate (term * ((active_series grid evs r).length / term) - 1)
                false ++ [true]).drop (t * term)).take term).countP (fun b => b))
      = (List.range ((active_series grid evs r).length / term)).map
          (fun t =>
            if t = (active_series grid evs r).length / term - 1 then 1 else 0) := by
      apply List.map_congr_left
      intro t ht
      rw [List.mem_range] at ht
      exact fix_churn_slice_count term _ t hterm ht
    rw [hstep]
    exact map_range_last_indicator _ hnT
  · intro hch row hrow
    have hfix2 : fix_churn_func
          (List.replicate (keep_month_trim term (active_series grid evs r)).length
            r.churn.isSome)
        = List.replicate (keep_month_trim term (active_series grid evs r)).length
            false := by
      rw [hch]
      unfold fix_churn_func
      rw [headD_replicate]
      simp
    unfold customerRows rowsFromSeq at hrow
    rw [List.mem_map] at hrow
    obtain ⟨t, ht, rfl⟩ := hrow
    show (((fix_churn_func _).drop (t * term)).take term).countP (fun b => b) = 0
    rw [hfix2, List.drop_replicate, List.take_replicate]
    exact countP_id_replicate_false _

/-- C1 witness: a concrete churned customer (churn in month 3, grid of months
0-2, one complete quarterly term) whose single emitted row carries the label. -/
theorem churned_label_last_row_only_witness :
    sampleChurn.churn.isSome = true
    ∧ customerRows (date_range 0 2) 3 1 none evD1 sampleChurn ≠ []
    ∧ (customerRows (date_range 0 2) 3 1 none evD1 sampleChurn).map (·.churned)
        = List.replicate
            ((customerRows (date_range 0 2) 3 1 none evD1 sampleChurn).length - 1) 0
          ++ [1] :=
  ⟨rfl, by decide,
    (churned_label_last_row_only (date_range 0 2) 3 1 none evD1 sampleChurn).1 rfl
      (by decide)⟩

/-- C2: every customer emits exactly `active_period_count / term` rows
(integer division), and in particular a customer with fewer than `term`
active periods emits no row. -/
theorem term_row_count (grid : List Int) (term : Nat) (w : Int) (split : Option Date)
    (evs : List BehaviorEvent) (r : CustRecord) :
    (customerRows grid term w split evs r).length
        = (active_series grid evs r).length / term
    ∧ ((active_series grid evs r).length < term →
        customerRows grid term w split evs r = []) := by
  constructor
  · exact length_rowsFromSeq _ _ _ _ _ _
  · intro h
    unfold customerRows rowsFromSeq
    rw [Nat.div_eq_of_lt h]
    simp

/-- C2 witness: a concrete customer with 2 active periods and `term = 3`
emits no row. -/
theorem term_row_count_witness :
    (active_series (date_range 0 1) [] sampleTri).length < 3
    ∧ customerRows (date_range 0 1) 3 1 none [] sampleTri = [] :=
  ⟨by decide, (term_row_count (date_range 0 1) 3 1 none [] sampleTri).2 (by decide)⟩

/-- C10: a customer whose became month precedes the first grid month never
gets an active period — the cumulative became flag never fires — so the
customer contributes no term row at all, whatever behavior events it has. -/
theorem pre_grid_became_never_active (lo hi : Int) (term : Nat) (w : Int)
    (split : Option Date) (evs : List BehaviorEvent) (r : CustRecord)
    (hb : monthOf r.became < lo) :
    (∀ p ∈ date_range lo hi, active_flag (date_range lo hi) r p = false)
    ∧ active_series (date_range lo hi) evs r = []
    ∧ customerRows (date_range lo hi) term w split evs r = [] := by
  have hflag : ∀ p : Int, active_flag (date_range lo hi) r p = false := by
    intro p
    unfold active_flag
    have h0 : flag_cumsum (date_range lo hi) (monthOf r.became) p = 0 := by
      by_contra hne
      obtain ⟨h1, -, -⟩ := flag_cumsum_ne_zero_iff.mp hne
      omega
    simp [h0]
  have hser : active_series (date_range lo hi) evs r = [] := by
    unfold active_series
    rw [List.filter_eq_nil_iff.mpr (fun p _ => by rw [hflag p]; simp)]
    simp
  refine ⟨fun p _ => hflag p, hser, ?_⟩
  unfold customerRows
  rw [hser]
  simp [rowsFromSeq]

/-- C10 witness: `recPre` became in month -1, the grid starts at month 0, and
`recPre` has an event inside the grid; it still emits no row. -/
theorem pre_grid_became_never_active_witness :
    monthOf recPre.became < 0
    ∧ customerRows (date_range 0 1) 1 1 none evPre recPre = [] :=
  ⟨by decide,
    (pre_grid_became_never_active 0 1 1 1 none evPre recPre (by decide)).2.2⟩

/-- The emitted rolling slices of one group, expressed against the rolling
statistic of the whole (untrimmed) series: trimming only removes a trailing
tail, so the two computations agree on every emitted position. -/
lemma rollings_rowsFromSeq (cid term : Nat) (w : Int) (split : Option Date)
    (ch : Bool) (seq : List (Int × Int)) :
    (rowsFromSeq cid term w split ch seq).map (·.rollings)
      = (List.range (seq.length / term)).map
          (fun t => ((rolling_feature w (seq.map (·.2))).drop (t * term)).take term) := by
  unfold rowsFromSeq
  rw [List.map_map]
  apply List.map_congr_left
  intro t ht
  rw [List.mem_range] at ht
  show ((rolling_feature w ((keep_month_trim term seq).map (·.2))).drop (t * term)).take
        term
      = ((rolling_feature w (seq.map (·.2))).drop (t * term)).take term
  rw [keep_month_trim_eq_take, List.map_take, rolling_feature_take]
  rw [List.drop_take, List.take_take]
  congr 1
  have key1 : (t + 1) * term ≤ (seq.length / term) * term :=
    Nat.mul_le_mul_right term (by omega)
  have key2 : (seq.length / term) * term = term * (seq.length / term) :=
    Nat.mul_comm _ _
  have key3 : (t + 1) * term = t * term + term := Nat.succ_mul t term
  omega

/-- C4 (amended): the emitted rolling features coincide, slice for slice, with
the rolling statistic computed on the full untrimmed active period sequence:
for every emitted period `k` the value aggregates the (untrimmed) active
periods strictly before `k`, and the window may reach across term boundaries.
The trimmed-away tail lies strictly after every emitted period, so it is
never part of a window. -/
theorem rolling_from_untrimmed_series (grid : List Int) (term : Nat) (w : Int)
    (split : Option Date) (evs : List BehaviorEvent) (r : CustRecord) :
    (customerRows grid term w split evs r).map (·.rollings)
      = (List.range ((active_series grid evs r).length / term)).map
          (fun t =>
            ((rolling_feature w ((active_series grid evs r).map (·.2))).drop
              (t * term)).take term) := by
  unfold customerRows
  exact rollings_rowsFromSeq _ _ _ _ _ _

/-- C4 counterexample: the claim reads the rolling windows as reaching into
periods that trimming later discards.  In this concrete run months 3 and 4
are active but trimmed away (5 active periods, quarterly terms); `evD1` and
`evD2` differ exactly there, the active series differ, yet every emitted row
— rolling column included — is identical: the window never reaches the
discarded tail, which lies strictly after every emitted period. -/
theorem rolling_never_reaches_trimmed_tail :
    (active_series gridD evD1 sampleTri).length = 5
    ∧ (active_series gridD evD2 sampleTri).length = 5
    ∧ active_series gridD evD1 sampleTri ≠ active_series gridD evD2 sampleTri
    ∧ keep_month_trim 3 (active_series gridD evD1 sampleTri)
        = keep_month_trim 3 (active_series gridD evD2 sampleTri)
    ∧ customerRows gridD 3 2 none evD1 sampleTri
        = customerRows gridD 3 2 none evD2 sampleTri :=
  ⟨by decide, by decide, by decide, by decide, by
    unfold customerRows
    exact rowsFromSeq_congr _ _ _ _ _ (by decide) (by decide)⟩

/-- C3 (amended): for a customer whose became month does not precede the
first grid month, and whose lifecycle dates satisfy the validated contract, a
grid period is retained iff it lies in the spec window: on or after the
became month (inclusive) and, for churned customers, strictly before the
churn month; never-churned customers are active from the became month onward.
(The amendment adds the grid-start hypothesis; see the counterexample.) -/
theorem active_flag_iff_spec_window (lo hi : Int) (r : CustRecord) (p : Int)
    (hp : p ∈ date_range lo hi) (hb : lo ≤ monthOf r.became)
    (hv : ∀ c, r.churn = some c → dateLe r.became c = true) :
    active_flag (date_range lo hi) r p = specWindow r p := by
  obtain ⟨hlo, hhi⟩ := mem_date_range.mp hp
  unfold active_flag specWindow
  cases hc : r.churn with
  | none =>
    rw [Bool.eq_iff_iff]
    simp only [Bool.and_true, decide_eq_true_eq]
    constructor
    · intro h
      obtain ⟨-, -, h3⟩ := flag_cumsum_ne_zero_iff.mp h
      exact h3
    · intro h
      exact flag_cumsum_ne_zero_iff.mpr ⟨hb, by omega, h⟩
  | some c =>
    have hbc : monthOf r.became ≤ monthOf c := dateLe_month (hv c hc)
    rw [Bool.eq_iff_iff]
    simp only [Bool.and_eq_true, decide_eq_true_eq]
    constructor
    · rintro ⟨h1, h2⟩
      obtain ⟨-, -, h3⟩ := flag_cumsum_ne_zero_iff.mp h1
      refine ⟨h3, ?_⟩
      by_contra hcp
      push_neg at hcp
      exact (flag_cumsum_ne_zero_iff.mpr ⟨by omega, by omega, by omega⟩) h2
    · rintro ⟨h1, h2⟩
      refine ⟨flag_cumsum_ne_zero_iff.mpr ⟨hb, by omega, h1⟩, ?_⟩
      by_contra h0
      obtain ⟨-, -, h3⟩ := flag_cumsum_ne_zero_iff.mp h0
      omega

/-- C3 witness: a concrete in-grid customer (became month 0, churn month 3,
grid of months 0-2) on which the code predicate and the spec window agree. -/
theorem active_flag_iff_spec_window_witness :
    (1 : Int) ∈ date_range 0 2
    ∧ active_flag (date_range 0 2) sampleChurn 1 = specWindow sampleChurn 1 :=
  ⟨by decide,
    active_flag_iff_spec_window 0 2 sampleChurn 1 (by decide) (by decide)
      (by intro c hc; cases hc; decide)⟩

/-- C3 counterexample: in the run over `evPre` the shared grid is months 0-1;
customer `recPre` became in month -1, before the grid, so month 1 lies in the
spec window but the code marks it inactive, and `recPre` emits no row even
though it has a behavior event in month 1 (the emitted cids are all 1). -/
theorem active_flag_spec_window_cex :
    gridOf evPre = .ok (date_range 0 1)
    ∧ specWindow recPre 1 = true
    ∧ active_flag (date_range 0 1) recPre 1 = false
    ∧ (process_behavior [recPre, recM1] evPre (some [("last_recurrence", "Mensal")])
          (some 1) none).map (fun rows => rows.map (·.cid)) = .ok [1, 1] :=
  ⟨rfl, by decide, by decide, rfl⟩

/-- C8: if any demographic record has a non-null churn date strictly earlier
than its became date, `process_behavior` stops with the `ValueError` before
any transformation and produces no output; when no record violates the
contract, the validation step passes the data through unchanged. -/
theorem validator_hard_stop (demgeo : List CustRecord) (behavior : List BehaviorEvent)
    (filter_rows : Option (List (String × String))) (rolling_window : Option Int)
    (split : Option Date) :
    ((∃ r ∈ demgeo, ∃ c, r.churn = some c ∧ dateLt c r.became = true) →
      process_behavior demgeo behavior filter_rows rolling_window split
        = .error
          "ValueError: existem datas churn nao nulas anteriores as datas became customer")
    ∧ ((∀ r ∈ demgeo, ∀ c, r.churn = some c → dateLe r.became c = true) →
      validateDemgeo demgeo = .ok demgeo) := by
  constructor
  · rintro ⟨r, hr, c, hc, hlt⟩
    have hbadr : badRecord r = true := by
      unfold badRecord
      rw [hc]
      show (!(dateLe r.became c)) = true
      rw [not_dateLe]
      exact hlt
    have hany : demgeo.any badRecord = true := List.any_eq_true.mpr ⟨r, hr, hbadr⟩
    unfold process_behavior validateDemgeo
    rw [hany]
    simp
  · intro h
    have hany : demgeo.any badRecord = false := by
      rw [List.any_eq_false]
      intro r hr
      unfold badRecord
      cases hc : r.churn with
      | none => simp
      | some c => simp [h r hr c hc]
    unfold validateDemgeo
    rw [hany]
    simp

/-- C8 witness: a concrete violating record stops the run with the
`ValueError`; a concrete clean table passes validation unchanged. -/
theorem validator_hard_stop_witness :
    badChurnRec.churn = some ⟨2, 0⟩
    ∧ process_behavior [badChurnRec] [] none none none
        = .error
          "ValueError: existem datas churn nao nulas anteriores as datas became customer"
    ∧ validateDemgeo [sampleTri] = .ok [sampleTri] :=
  ⟨rfl,
    (validator_hard_stop [badChurnRec] [] none none none).1
      ⟨badChurnRec, List.mem_singleton.mpr rfl, ⟨2, 0⟩, rfl, by decide⟩,
    (validator_hard_stop [sampleTri] [] none none none).2 (by
      intro r hr c hc
      rw [List.mem_singleton] at hr
      subst hr
      simp [sampleTri] at hc)⟩

/-- The synthesized events of `ids_no_behavior` carrying a given customer id,
written against the demographic rows carrying that id. -/
lemma ids_no_behavior_filter (d1 : List CustRecord) (b1 : List BehaviorEvent)
    (cid0 : Nat) :
    (ids_no_behavior d1 b1).filter (fun e => e.cid == cid0)
      = ids_no_behavior (d1.filter (fun x => x.cid == cid0)) b1 := by
  unfold ids_no_behavior
  induction d1 with
  | nil => rfl
  | cons a d ih =>
    by_cases h1 : a.cid == cid0 <;> by_cases h2 : b1.any (fun e => e.cid == a.cid)
      <;> simp [List.filter_cons, h1, h2, ih]

/-- C9: a customer of the filtered demographic table (appearing there exactly
once) with no behavior row gets exactly one synthesized event — volume 0,
dated at its became date — in the augmented behavior table, and the period
grid built from the augmented table is nonempty, so the customer has at least
one period of data in the periodized output. -/
theorem zero_fill_exactly_one_event (d1 : List CustRecord) (b1 : List BehaviorEvent)
    (r : CustRecord)
    (huniq : d1.filter (fun x => x.cid == r.cid) = [r])
    (hnb : ∀ e ∈ b1, e.cid ≠ r.cid) :
    (b1 ++ ids_no_behavior d1 b1).filter (fun e => e.cid == r.cid)
        = [{ cid := r.cid, date := r.became, volume := 0 }]
    ∧ ∀ g, gridOf (b1 ++ ids_no_behavior d1 b1) = .ok g → g ≠ [] := by
  have hnoEv : (b1.any (fun e => e.cid == r.cid)) = false := by
    rw [List.any_eq_false]
    intro e he
    simp only [beq_iff_eq]
    exact hnb e he
  constructor
  · rw [List.filter_append]
    have h1 : b1.filter (fun e => e.cid == r.cid) = [] := by
      rw [List.filter_eq_nil_iff]
      intro e he
      simp only [beq_iff_eq]
      exact hnb e he
    rw [h1, List.nil_append, ids_no_behavior_filter, huniq]
    unfold ids_no_behavior
    simp [List.filter_cons, hnoEv]
  · intro g hg
    have hrfil : r ∈ d1.filter (fun x => x.cid == r.cid) := by
      rw [huniq]
      exact List.mem_singleton.mpr rfl
    have hmem : ({ cid := r.cid, date := r.became, volume := 0 } : BehaviorEvent)
        ∈ b1 ++ ids_no_behavior d1 b1 := by
      apply List.mem_append_right
      unfold ids_no_behavior
      apply List.mem_map_of_mem
      rw [List.mem_filter]
      refine ⟨(List.mem_filter.mp hrfil).1, ?_⟩
      rw [Bool.not_eq_true']
      exact hnoEv
    exact gridOf_ok_ne_nil (List.ne_nil_of_mem hmem) hg

/-- C9 witness: a concrete filtered customer with no behavior rows receives
exactly the one synthetic zero-volume event at its became date. -/
theorem zero_fill_exactly_one_event_witness :
    [sampleTri].filter (fun x => x.cid == sampleTri.cid) = [sampleTri]
    ∧ (([] : List BehaviorEvent) ++ ids_no_behavior [sampleTri] []).filter
        (fun e => e.cid == sampleTri.cid)
        = [{ cid := sampleTri.cid, date := sampleTri.became, volume := 0 }] :=
  ⟨by decide,
    (zero_fill_exactly_one_event [sampleTri] [] sampleTri (by decide)
      (fun e he => absurd he (List.not_mem_nil e))).1⟩

/-- C7 (amended): when the filtered demographic table shares no customer id
with the behavior table, the zero-fill augmenter synthesizes one event per
customer, so — given a clean validation, a resolvable recurrence filter, a
nonzero rolling window and a nonempty filtered demographic table — the
pipeline completes and returns a table; that table need not be empty (see
the counterexample), and with an empty filtered demographic table the
period-grid construction fails instead of returning an empty table. -/
theorem empty_intersection_completes (demgeo : List CustRecord)
    (behavior : List BehaviorEvent) (frs : List (String × String))
    (rolling_window : Option Int) (split : Option Date)
    (hval : demgeo.any badRecord = false)
    (hne : filterDemgeo frs demgeo ≠ [])
    (hdisj : ∀ e ∈ behavior, ∀ r ∈ filterDemgeo frs demgeo, e.cid ≠ r.cid)
    (hterm : ∃ t, resolveTerm frs = .ok t)
    (hw : ∃ wv, resolveRolling rolling_window = .ok wv) :
    ∃ rows, process_behavior demgeo behavior (some frs) rolling_window split
        = .ok rows := by
  obtain ⟨t, ht⟩ := hterm
  obtain ⟨wv, hwv⟩ := hw
  have hb1 : restrictBehavior (filterDemgeo frs demgeo) behavior = [] := by
    unfold restrictBehavior
    rw [List.filter_eq_nil_iff]
    intro e he
    rw [Bool.not_eq_true, List.any_eq_false]
    intro r hr
    simp only [beq_iff_eq]
    exact fun hcid => hdisj e he r hr hcid.symm
  have hids : ids_no_behavior (filterDemgeo frs demgeo) [] ≠ [] := by
    unfold ids_no_behavior
    simp only [List.any_nil, Bool.not_false, List.filter_true]
    rw [Ne, List.map_eq_nil_iff]
    exact hne
  obtain ⟨e0, es, hcons⟩ := List.exists_cons_of_ne_nil hids
  unfold process_behavior validateDemgeo filtersOrError
  rw [hval]
  simp only [Bool.false_eq_true, if_false, hb1, List.nil_append, hcons, gridOf,
    List.map_cons, ht, hwv]
  exact ⟨_, rfl⟩

/-- C7 witness: a concrete run with an empty behavior/demographic
intersection that completes. -/
theorem empty_intersection_completes_witness :
    filterDemgeo [("last_recurrence", "Mensal")] demgeo7 ≠ []
    ∧ ∃ rows, process_behavior demgeo7 behavior7 (some [("last_recurrence", "Mensal")])
        (some 1) none = .ok rows :=
  ⟨by decide,
    empty_intersection_completes demgeo7 behavior7 [("last_recurrence", "Mensal")]
      (some 1) none (by decide) (by decide) (by decide) ⟨1, rfl⟩ ⟨1, rfl⟩⟩

/-- C7 counterexample: a concrete empty behavior/demographic intersection
(behavior only has customer 99, the filtered demographics are customers 1 and
2) on which the pipeline completes but returns four rows, not an empty
table: the zero-filled customers still emit completed terms. -/
theorem empty_intersection_nonempty_output :
    restrictBehavior (filterDemgeo [("last_recurrence", "Mensal")] demgeo7) behavior7 = []
    ∧ (process_behavior demgeo7 behavior7 (some [("last_recurrence", "Mensal")])
          (some 1) none).map List.length = .ok 4 :=
  ⟨rfl, rfl⟩

/-- C5: with `rolling_window` disabled (`None` — the default — or `0`) the
pipeline does not complete without rolling columns as the spec says: building
`behavior_agg_dict` at line 213 references the unbound name
`behavior_volume_col_rm` and raises `NameError`. -/
theorem rolling_disabled_name_error :
    process_behavior [sampleTri] [] (some [("last_recurrence", "Trimestral")]) none none
        = .error "NameError: name behavior_volume_col_rm is not defined"
    ∧ process_behavior [sampleTri] [] (some [("last_recurrence", "Trimestral")]) (some 0)
          none
        = .error "NameError: name behavior_volume_col_rm is not defined" :=
  ⟨rfl, rfl⟩

/-- C6: a `None` cohort filter does not pass customers through unchanged:
line 117 iterates over `None` and raises `TypeError` (although the docstring
documents `None` as valid); an empty filter mapping filters nothing at the
filter stage, but the pipeline then fails at line 176 with
`KeyError: last_recurrence` instead of processing the customers through. -/
theorem filter_none_or_empty_fails :
    process_behavior [sampleTri] [] none (some 1) none
        = .error "TypeError: NoneType object is not iterable"
    ∧ process_behavior [sampleTri] [] (some []) (some 1) none
        = .error "KeyError: last_recurrence"
    ∧ filterDemgeo [] [sampleTri] = [sampleTri] :=
  ⟨rfl, rfl, rfl⟩

end ProcessBehavior
